import Mathlib

/-!
Shallow embedding of the 6502-family CPU emulator core
(`src/CPU.rs`, `src/CPU/memory.rs`, `src/addressing_modes.rs`,
`src/instructions.rs`) and proofs about it.

Machine integers are modelled as `Nat` with explicit `% 256` / `% 65536`
where the source wraps; Rust panics (array indexing out of bounds, slice
range errors, `todo!()`, `panic!`) are modelled as `Option`/error results.
-/

/-- The addressing-mode enum from `src/addressing_modes.rs`. -/
inductive AddressingMode where
  | Immediate
  | ZeroPage
  | ZeroPage_X
  | ZeroPage_Y
  | Absolute
  | Absolute_X
  | Absolute_Y
  | Indirect_X
  | Indirect_Y
  | NoneAddressing
deriving DecidableEq

/-- The CPU state from `src/CPU.rs`: three 8-bit registers, the 8-bit
status byte, the 16-bit program counter, and the backing memory array.
The source declares `memory: [u8; 0xFFFF]` (65535 cells); we model the
array contents as a function and enforce the 65535-cell bound in the
accessors, which return `none` where the Rust code would panic with an
out-of-bounds index. -/
structure CPU where
  register_a : Nat
  register_x : Nat
  register_y : Nat
  status : Nat
  program_counter : Nat
  memory : Nat → Nat

/-- Number of cells of the backing array `memory: [u8; 0xFFFF]`. -/
def MEMLEN : Nat := 0xFFFF

namespace CPUFlags

/-- Modelled from the spec: the `CPUFlags` bitflags declaration lives in a
`CPU.rs` revision that is absent from `src/`; the spec fixes the named
bits in order (right to left) Carry, Zero, InterruptDisable, DecimalMode,
Break, Break2, Overflow, Negative. -/
def CARRY : Nat := 0b1

/-- Modelled from the spec: Zero flag bit. -/
def ZERO : Nat := 0b10

/-- Modelled from the spec: InterruptDisable flag bit. -/
def INTERRUPT_DISABLE : Nat := 0b100

/-- Modelled from the spec: DecimalMode flag bit. -/
def DECIMAL_MODE : Nat := 0b1000

/-- Modelled from the spec: Break flag bit. -/
def BREAK : Nat := 0b10000

/-- Modelled from the spec: Break2 (unused placeholder) flag bit. -/
def BREAK2 : Nat := 0b100000

/-- Modelled from the spec: Overflow flag bit. -/
def OVERFLOW : Nat := 0b1000000

/-- Modelled from the spec: Negative flag bit. -/
def NEGATIV : Nat := 0b10000000

end CPUFlags

/-- Modelled from the spec: `bitflags` `insert` on the u8 status byte
(`bits |= mask`). -/
def statusInsert (status mask : Nat) : Nat := status ||| mask

/-- Modelled from the spec: `bitflags` `remove` on the u8 status byte
(`bits &= !mask`, with `!` the u8 complement). -/
def statusRemove (status mask : Nat) : Nat := status &&& (255 ^^^ mask)

/-- Modelled from the spec: `bitflags` `set` on the u8 status byte
(insert when the condition holds, remove otherwise). -/
def statusSet (status mask : Nat) (b : Bool) : Nat :=
  if b then statusInsert status mask else statusRemove status mask

/-- Modelled from the spec: `bitflags` `contains` on the u8 status byte
(`bits & mask == mask`). -/
def statusContains (status mask : Nat) : Bool := status &&& mask == mask

/-- `Mem::mem_read` for `CPU` from `src/CPU/memory.rs` (identical body in
`src/CPU.rs`): `self.memory[addr as usize]`. Indexing the 65535-cell
array panics for `addr = 0xFFFF`, modelled as `none`. -/
def CPU.mem_read (cpu : CPU) (addr : Nat) : Option Nat :=
  if addr < MEMLEN then some (cpu.memory addr) else none

/-- `Mem::mem_write` for `CPU` from `src/CPU/memory.rs` (identical body in
`src/CPU.rs`): `self.memory[addr as usize] = data`. -/
def CPU.mem_write (cpu : CPU) (addr data : Nat) : Option CPU :=
  if addr < MEMLEN then
    some { cpu with memory := fun i => if i = addr then data else cpu.memory i }
  else none

/-- `mem_read_u16` from `src/CPU/memory.rs` (same body in `src/CPU.rs`):
little-endian, `(hi << 8) | lo` with `lo` at `pos` and `hi` at `pos + 1`. -/
def CPU.mem_read_u16 (cpu : CPU) (pos : Nat) : Option Nat := do
  let lo ← cpu.mem_read pos
  let hi ← cpu.mem_read (pos + 1)
  return (hi <<< 8) ||| lo

/-- `mem_write_u16` from `src/CPU/memory.rs` (same body in `src/CPU.rs`):
`hi = (data >> 8) as u8`, `lo = (data & 0xFF) as u8`, write `lo` at `pos`
then `hi` at `pos + 1`. -/
def CPU.mem_write_u16 (cpu : CPU) (pos data : Nat) : Option CPU := do
  let hi := (data >>> 8) % 256
  let lo := data &&& 0xFF
  let cpu ← cpu.mem_write pos lo
  cpu.mem_write (pos + 1) hi

/-- `get_operand_address` from `src/addressing_modes.rs`. The Rust method
takes `&mut self`; we thread the state and return it with the address, so
that any mutation would be visible. `wrapping_add` on u8 is `% 256`, on
u16 is `% 65536`. The `NoneAddressing` arm panics (`none`). -/
def CPU.get_operand_address (cpu : CPU) (mode : AddressingMode) :
    Option (Nat × CPU) :=
  match mode with
  | .Immediate => some (cpu.program_counter, cpu)
  | .ZeroPage => (cpu.mem_read cpu.program_counter).map (fun v => (v, cpu))
  | .ZeroPage_X =>
      (cpu.mem_read cpu.program_counter).map
        (fun v => ((v + cpu.register_x) % 256, cpu))
  | .ZeroPage_Y =>
      (cpu.mem_read cpu.program_counter).map
        (fun v => ((v + cpu.register_y) % 256, cpu))
  | .Absolute => (cpu.mem_read_u16 cpu.program_counter).map (fun v => (v, cpu))
  | .Absolute_X =>
      (cpu.mem_read_u16 cpu.program_counter).map
        (fun v => ((v + cpu.register_x) % 65536, cpu))
  | .Absolute_Y =>
      (cpu.mem_read_u16 cpu.program_counter).map
        (fun v => ((v + cpu.register_y) % 65536, cpu))
  | .Indirect_X => do
      let base ← cpu.mem_read cpu.program_counter
      let ptr := (base + cpu.register_x) % 256
      let lo ← cpu.mem_read ptr
      let hi ← cpu.mem_read ((ptr + 1) % 256)
      return ((hi <<< 8) ||| lo, cpu)
  | .Indirect_Y => do
      let base ← cpu.mem_read cpu.program_counter
      let lo ← cpu.mem_read base
      let hi ← cpu.mem_read ((base + 1) % 256)
      let derefBase := (hi <<< 8) ||| lo
      return ((derefBase + cpu.register_y) % 65536, cpu)
  | .NoneAddressing => none

/-- `update_zero_and_negative_flags` from `src/instructions.rs`:
`status.set(ZERO, result == 0)` and `status.set(NEGATIV, result >> 7 == 1)`. -/
def CPU.update_zero_and_negative_flags (cpu : CPU) (result : Nat) : CPU :=
  let cpu := { cpu with status := statusSet cpu.status CPUFlags.ZERO (result == 0) }
  { cpu with status := statusSet cpu.status CPUFlags.NEGATIV (result >>> 7 == 1) }

/-- `update_overflow_flag` from `src/instructions.rs`:
`(arg1 ^ result) & (arg2 ^ result) & 0b1000_0000 != 0`. -/
def CPU.update_overflow_flag (cpu : CPU) (arg1 arg2 result : Nat) : CPU :=
  let condition := (arg1 ^^^ result) &&& (arg2 ^^^ result) &&& 0b10000000 != 0
  { cpu with status := statusSet cpu.status CPUFlags.OVERFLOW condition }

/-- `add_to_reg_a` from `src/instructions.rs`: widened sum of operand,
accumulator and carry-in; carry flag from `bigres > 0xff`; truncating
conversion to u8; then overflow, zero and negative flags; finally the
accumulator is replaced by the truncated result. -/
def CPU.add_to_reg_a (cpu : CPU) (arg : Nat) : CPU :=
  let bigres := arg + cpu.register_a
    + (if statusContains cpu.status CPUFlags.CARRY then 1 else 0)
  let cpu := { cpu with status := statusSet cpu.status CPUFlags.CARRY (decide (bigres > 0xff)) }
  let res := bigres % 256
  let cpu := cpu.update_overflow_flag cpu.register_a arg res
  let cpu := cpu.update_zero_and_negative_flags res
  { cpu with register_a := res }

/-- `adc` from `src/instructions.rs`. -/
def CPU.adc (cpu : CPU) (mode : AddressingMode) : Option CPU := do
  let (addr, cpu) ← cpu.get_operand_address mode
  let value ← cpu.mem_read addr
  return cpu.add_to_reg_a value

/-- `and` from `src/instructions.rs`. -/
def CPU.and (cpu : CPU) (mode : AddressingMode) : Option CPU := do
  let (addr, cpu) ← cpu.get_operand_address mode
  let value ← cpu.mem_read addr
  let cpu := { cpu with register_a := value &&& cpu.register_a }
  return cpu.update_zero_and_negative_flags cpu.register_a

/-- `bit_shift_left_and_set_flags` from `src/instructions.rs`: carry from
the old bit 7 (`value >> 7 == 1`), result is `value << 1` truncated to u8. -/
def CPU.bit_shift_left_and_set_flags (cpu : CPU) (value : Nat) : Nat × CPU :=
  let cpu := { cpu with status := statusSet cpu.status CPUFlags.CARRY (value >>> 7 == 1) }
  let res := (value <<< 1) % 256
  (res, cpu.update_zero_and_negative_flags res)

/-- `asl` from `src/instructions.rs`: on `NoneAddressing` shifts the
accumulator, otherwise shifts the byte at the resolved address in place. -/
def CPU.asl (cpu : CPU) (mode : AddressingMode) : Option CPU :=
  if mode = AddressingMode.NoneAddressing then
    let (res, cpu) := cpu.bit_shift_left_and_set_flags cpu.register_a
    some { cpu with register_a := res }
  else do
    let (addr, cpu) ← cpu.get_operand_address mode
    let val ← cpu.mem_read addr
    let (res, cpu) := cpu.bit_shift_left_and_set_flags val
    cpu.mem_write addr res

/-- `add_next_val_to_pc_if` from `src/instructions.rs`: when the predicate
holds, reads the byte at the program counter and sets
`pc ← pc.wrapping_add(1).wrapping_add(jmp as u16)`; note `jmp` is a `u8`
zero-extended by `as u16`. -/
def CPU.add_next_val_to_pc_if (cpu : CPU) (predicate : Bool) : Option CPU :=
  if predicate then do
    let jmp ← cpu.mem_read cpu.program_counter
    return { cpu with program_counter := (cpu.program_counter + 1 + jmp) % 65536 }
  else
    some cpu

/-- `bcc` from `src/instructions.rs`. -/
def CPU.bcc (cpu : CPU) : Option CPU :=
  cpu.add_next_val_to_pc_if (!statusContains cpu.status CPUFlags.CARRY)

/-- `bcs` from `src/instructions.rs`. -/
def CPU.bcs (cpu : CPU) : Option CPU :=
  cpu.add_next_val_to_pc_if (statusContains cpu.status CPUFlags.CARRY)

/-- `beq` from `src/instructions.rs`. -/
def CPU.beq (cpu : CPU) : Option CPU :=
  cpu.add_next_val_to_pc_if (statusContains cpu.status CPUFlags.ZERO)

/-- `bmi` from `src/instructions.rs`. -/
def CPU.bmi (cpu : CPU) : Option CPU :=
  cpu.add_next_val_to_pc_if (statusContains cpu.status CPUFlags.NEGATIV)

/-- `bne` from `src/instructions.rs`. -/
def CPU.bne (cpu : CPU) : Option CPU :=
  cpu.add_next_val_to_pc_if (!statusContains cpu.status CPUFlags.ZERO)

/-- `bpl` from `src/instructions.rs`. -/
def CPU.bpl (cpu : CPU) : Option CPU :=
  cpu.add_next_val_to_pc_if (!statusContains cpu.status CPUFlags.NEGATIV)

/-- `bvc` from `src/instructions.rs`. -/
def CPU.bvc (cpu : CPU) : Option CPU :=
  cpu.add_next_val_to_pc_if (!statusContains cpu.status CPUFlags.OVERFLOW)

/-- `bvs` from `src/instructions.rs`. -/
def CPU.bvs (cpu : CPU) : Option CPU :=
  cpu.add_next_val_to_pc_if (statusContains cpu.status CPUFlags.OVERFLOW)

/-- `bit` from `src/instructions.rs`: zero flag from `register_a & value`;
then `status.set(OVERFLOW, value >> 6 == 1)` and
`status.set(NEGATIV, value >> 7 == 1)`. -/
def CPU.bit (cpu : CPU) (mode : AddressingMode) : Option CPU := do
  let (addr, cpu) ← cpu.get_operand_address mode
  let value ← cpu.mem_read addr
  let cpu :=
    if cpu.register_a &&& value == 0 then
      { cpu with status := statusInsert cpu.status CPUFlags.ZERO }
    else
      { cpu with status := statusRemove cpu.status CPUFlags.ZERO }
  let cpu := { cpu with status := statusSet cpu.status CPUFlags.OVERFLOW (value >>> 6 == 1) }
  return { cpu with status := statusSet cpu.status CPUFlags.NEGATIV (value >>> 7 == 1) }

/-- `lda` from `src/instructions.rs`. -/
def CPU.lda (cpu : CPU) (mode : AddressingMode) : Option CPU := do
  let (addr, cpu) ← cpu.get_operand_address mode
  let value ← cpu.mem_read addr
  let cpu := { cpu with register_a := value }
  return cpu.update_zero_and_negative_flags cpu.register_a

/-- `sta` from `src/instructions.rs`. -/
def CPU.sta (cpu : CPU) (mode : AddressingMode) : Option CPU := do
  let (addr, cpu) ← cpu.get_operand_address mode
  cpu.mem_write addr cpu.register_a

/-- `tax` from `src/instructions.rs`. -/
def CPU.tax (cpu : CPU) : CPU :=
  let cpu := { cpu with register_x := cpu.register_a }
  cpu.update_zero_and_negative_flags cpu.register_x

/-- `inx` from `src/instructions.rs`: `register_x.wrapping_add(1)`. -/
def CPU.inx (cpu : CPU) : CPU :=
  let cpu := { cpu with register_x := (cpu.register_x + 1) % 256 }
  cpu.update_zero_and_negative_flags cpu.register_x

namespace CPUOld

/-- `update_zero_and_negative_flags` from the `src/CPU.rs` snapshot, which
manipulates the status byte with raw masks instead of the bitflags type. -/
def update_zero_and_negative_flags (cpu : CPU) (result : Nat) : CPU :=
  let cpu :=
    if result == 0 then { cpu with status := cpu.status ||| 0b10 }
    else { cpu with status := cpu.status &&& 0b11111101 }
  if result &&& 0b10000000 != 0 then { cpu with status := cpu.status ||| 0b10000000 }
  else { cpu with status := cpu.status &&& 0b01111111 }

/-- `lda` from the `src/CPU.rs` snapshot (takes the already-fetched value). -/
def lda (cpu : CPU) (value : Nat) : CPU :=
  let cpu := { cpu with register_a := value }
  update_zero_and_negative_flags cpu cpu.register_a

/-- `tax` from the `src/CPU.rs` snapshot. -/
def tax (cpu : CPU) : CPU :=
  let cpu := { cpu with register_x := cpu.register_a }
  update_zero_and_negative_flags cpu cpu.register_x

/-- `inx` from the `src/CPU.rs` snapshot: `register_x.wrapping_add(1)`. -/
def inx (cpu : CPU) : CPU :=
  let cpu := { cpu with register_x := (cpu.register_x + 1) % 256 }
  update_zero_and_negative_flags cpu cpu.register_x

end CPUOld

/-- `reset` from `src/CPU.rs`: zero the accumulator, `register_x` and the
status byte, then load the program counter from the little-endian vector
at `0xFFFC`. -/
def CPU.reset (cpu : CPU) : Option CPU := do
  let cpu := { cpu with register_a := 0, register_x := 0, status := 0 }
  let pc ← cpu.mem_read_u16 0xFFFC
  return { cpu with program_counter := pc }

/-- `load` from `src/CPU.rs`:
`self.memory[0x8000..(0x8000 + program.len())].copy_from_slice(&program)`
followed by `mem_write_u16(0xFFFC, 0x8000)`. The slice indexing panics
(`none`) when `0x8000 + program.len()` exceeds the 65535-cell array
length, before any byte is copied. -/
def CPU.load (cpu : CPU) (program : List Nat) : Option CPU :=
  if 0x8000 + program.length ≤ MEMLEN then
    let cpu := { cpu with memory := fun i =>
      (if 0x8000 ≤ i ∧ i < 0x8000 + program.length then program.getD (i - 0x8000) 0
       else cpu.memory i) }
    cpu.mem_write_u16 0xFFFC 0x8000
  else none

/-- The ways the `src/CPU.rs` execution loop can panic: `todo!()` on an
opcode with no match arm (the panic carries no data identifying the byte
or its address), and an out-of-bounds array index. -/
inductive RunError where
  | notImplemented
  | indexOutOfBounds
  | sliceOutOfBounds
deriving DecidableEq

/-- Outcome of the fuelled execution loop. -/
inductive RunResult where
  | halted (cpu : CPU)
  | panicked (e : RunError)
  | outOfFuel

/-- `run` from `src/CPU.rs`, with explicit fuel for the unbounded loop:
fetch the opcode byte at the program counter, advance the counter, then
dispatch on `0xA9` (LDA immediate), `0xAA` (TAX), `0xE8` (INX), `0x00`
(BRK, which sets bit `0b0010_0000` and returns); every other byte hits
`todo!()`. -/
def CPU.run : Nat → CPU → RunResult
  | 0, _ => .outOfFuel
  | fuel + 1, cpu =>
    match cpu.mem_read cpu.program_counter with
    | none => .panicked .indexOutOfBounds
    | some opscode =>
      let cpu := { cpu with program_counter := cpu.program_counter + 1 }
      if opscode == 0xA9 then
        match cpu.mem_read cpu.program_counter with
        | none => .panicked .indexOutOfBounds
        | some param =>
          let cpu := { cpu with program_counter := cpu.program_counter + 1 }
          CPU.run fuel (CPUOld.lda cpu param)
      else if opscode == 0xAA then CPU.run fuel (CPUOld.tax cpu)
      else if opscode == 0xE8 then CPU.run fuel (CPUOld.inx cpu)
      else if opscode == 0x00 then .halted { cpu with status := cpu.status ||| 0b100000 }
      else .panicked .notImplemented

/-- `load_and_run` from `src/CPU.rs`: `load`, `reset`, `run`. -/
def CPU.load_and_run (fuel : Nat) (cpu : CPU) (program : List Nat) : RunResult :=
  match cpu.load program with
  | none => .panicked .sliceOutOfBounds
  | some cpu =>
    match cpu.reset with
    | none => .panicked .indexOutOfBounds
    | some cpu => cpu.run fuel

/-- The instructions with implemented handlers in `src/instructions.rs`
(`brk` there is a bare todo and is excluded). -/
inductive Instr where
  | lda
  | sta
  | tax
  | inx
  | adc
  | and
  | asl
  | bit
  | bcc
  | bcs
  | beq
  | bmi
  | bne
  | bpl
  | bvc
  | bvs
deriving DecidableEq

/-- Dispatch to the handler of each implemented instruction. -/
def execInstr (cpu : CPU) (i : Instr) (mode : AddressingMode) : Option CPU :=
  match i with
  | .lda => cpu.lda mode
  | .sta => cpu.sta mode
  | .tax => some cpu.tax
  | .inx => some cpu.inx
  | .adc => cpu.adc mode
  | .and => cpu.and mode
  | .asl => cpu.asl mode
  | .bit => cpu.bit mode
  | .bcc => cpu.bcc
  | .bcs => cpu.bcs
  | .beq => cpu.beq
  | .bmi => cpu.bmi
  | .bne => cpu.bne
  | .bpl => cpu.bpl
  | .bvc => cpu.bvc
  | .bvs => cpu.bvs

/-- The documented touched-flag set of each instruction from the spec's
instruction table, as a bit mask over the status byte. -/
def touchedMask : Instr → Nat
  | .lda | .tax | .inx | .and => CPUFlags.ZERO ||| CPUFlags.NEGATIV
  | .adc => CPUFlags.CARRY ||| CPUFlags.OVERFLOW ||| CPUFlags.ZERO ||| CPUFlags.NEGATIV
  | .asl => CPUFlags.CARRY ||| CPUFlags.ZERO ||| CPUFlags.NEGATIV
  | .bit => CPUFlags.ZERO ||| CPUFlags.OVERFLOW ||| CPUFlags.NEGATIV
  | .sta | .bcc | .bcs | .beq | .bmi | .bne | .bpl | .bvc | .bvs => 0

/-- Carry-in bit of the pre-state, as the ADC claim words it. -/
def carryIn (cpu : CPU) : Nat :=
  if statusContains cpu.status CPUFlags.CARRY then 1 else 0

/-- The ADC postcondition exactly as the claim states it: the accumulator
becomes the low 8 bits of the widened sum; Carry iff the widened sum
exceeds 255; Overflow iff `(a ^ r) & (m ^ r) & 0x80` is nonzero; Zero and
Negative from the result byte. -/
def ADCPost (cpu : CPU) (m : Nat) (cpu' : CPU) : Prop :=
  cpu'.register_a = (cpu.register_a + m + carryIn cpu) % 256 ∧
  (statusContains cpu'.status CPUFlags.CARRY = true ↔
    255 < cpu.register_a + m + carryIn cpu) ∧
  (statusContains cpu'.status CPUFlags.OVERFLOW = true ↔
    (cpu.register_a ^^^ cpu'.register_a) &&& (m ^^^ cpu'.register_a) &&& 0x80 ≠ 0) ∧
  (statusContains cpu'.status CPUFlags.ZERO = true ↔ cpu'.register_a = 0) ∧
  (statusContains cpu'.status CPUFlags.NEGATIV = true ↔
    Nat.testBit cpu'.register_a 7 = true)

/-- The branch target the claim specifies: the offset byte sign-extended
and added to the program counter already advanced past the offset, with
16-bit wraparound. -/
def branchTargetSpec (pc off : Nat) : Nat :=
  (pc + 1 + (if off < 0x80 then off else off + 0xFF00)) % 65536

/-- A concrete all-zero CPU state. -/
def cpuZero : CPU := ⟨0, 0, 0, 0, 0, fun _ => 0⟩

/-- Concrete state for the ADC witness: accumulator 0x40, operand byte
0x40 everywhere, carry clear. -/
def cpuA : CPU := ⟨0x40, 0, 0, 0, 0, fun _ => 0x40⟩

/-- Concrete state for the BIT counterexample: accumulator 0xFF, Overflow
initially set, memory byte 0xC0 (bits 6 and 7 both set). -/
def cpuB : CPU := ⟨0xFF, 0, 0, 0x40, 0, fun _ => 0xC0⟩

/-- Concrete state for the branch counterexample: Carry set, program
counter 0x8000, offset byte 0x80 (that is, -128) at 0x8000. -/
def cpuC : CPU := ⟨0, 0, 0, 1, 0x8000, fun i => if i = 0x8000 then 0x80 else 0⟩

/-- A concrete CPU state with distinct field values. -/
def cpuD : CPU := ⟨1, 2, 3, 4, 5, fun _ => 6⟩

/-- Concrete state whose next opcode byte (0x02) has no match arm in the
execution loop. -/
def cpuE : CPU := ⟨0, 0, 0, 0, 0, fun _ => 0x02⟩

/-! ### Helper lemmas about the status byte -/

theorem testBit_eq_false_of_lt_256 {s : Nat} (hs : s < 256) {b : Nat} (hb : 8 ≤ b) :
    s.testBit b = false :=
  Nat.testBit_eq_false_of_lt
    (lt_of_lt_of_le hs (by calc (256 : Nat) = 2 ^ 8 := by norm_num
                             _ ≤ 2 ^ b := Nat.pow_le_pow_right (by norm_num) hb))

theorem lor_lt_256 {x y : Nat} (hx : x < 256) (hy : y < 256) : x ||| y < 256 := by
  have h : x ||| y = (x ||| y) % 2 ^ 8 := by
    refine Nat.eq_of_testBit_eq fun i => ?_
    rw [Nat.testBit_mod_two_pow, Nat.testBit_lor]
    by_cases hi : i < 8
    · simp [hi]
    · push_neg at hi
      rw [testBit_eq_false_of_lt_256 hx hi, testBit_eq_false_of_lt_256 hy hi]
      simp
  rw [h]
  have : (0 : Nat) < 2 ^ 8 := by norm_num
  have := Nat.mod_lt (x ||| y) this
  omega

theorem statusInsert_lt_256 {s mask : Nat} (hs : s < 256) (hmask : mask < 256) :
    statusInsert s mask < 256 :=
  lor_lt_256 hs hmask

theorem statusRemove_lt_256 {s : Nat} (mask : Nat) (hs : s < 256) :
    statusRemove s mask < 256 :=
  lt_of_le_of_lt Nat.and_le_left hs

theorem statusSet_lt_256 {s mask : Nat} (v : Bool) (hs : s < 256) (hmask : mask < 256) :
    statusSet s mask v < 256 := by
  cases v
  · exact statusRemove_lt_256 mask hs
  · exact statusInsert_lt_256 hs hmask

theorem testBit_255 (b : Nat) : Nat.testBit 255 b = decide (b < 8) := by
  have h : (255 : Nat) = 2 ^ 8 - 1 := by norm_num
  rw [h, Nat.testBit_two_pow_sub_one]

theorem statusInsert_testBit_frame {s mask : Nat} {b : Nat}
    (hb : Nat.testBit mask b = false) :
    Nat.testBit (statusInsert s mask) b = Nat.testBit s b := by
  rw [statusInsert, Nat.testBit_lor, hb]
  simp

theorem statusRemove_testBit_frame {s mask : Nat} {b : Nat} (hs : s < 256)
    (hb : Nat.testBit mask b = false) :
    Nat.testBit (statusRemove s mask) b = Nat.testBit s b := by
  rw [statusRemove, Nat.testBit_land, Nat.testBit_xor, hb, testBit_255]
  by_cases hb8 : b < 8
  · simp [hb8]
  · push_neg at hb8
    rw [testBit_eq_false_of_lt_256 hs hb8]
    simp [hb8]

theorem statusSet_testBit_frame {s mask : Nat} (v : Bool) {b : Nat} (hs : s < 256)
    (hb : Nat.testBit mask b = false) :
    Nat.testBit (statusSet s mask v) b = Nat.testBit s b := by
  cases v
  · exact statusRemove_testBit_frame hs hb
  · exact statusInsert_testBit_frame hb

theorem statusSet_testBit_self (s k : Nat) (v : Bool) (hk : k < 8) :
    Nat.testBit (statusSet s (2 ^ k) v) k = v := by
  cases v
  · rw [statusSet, if_neg (by simp), statusRemove, Nat.testBit_land, Nat.testBit_xor,
      testBit_255, Nat.testBit_two_pow]
    simp [hk]
  · rw [statusSet, if_pos rfl, statusInsert, Nat.testBit_lor, Nat.testBit_two_pow]
    simp

theorem statusContains_two_pow (s k : Nat) :
    statusContains s (2 ^ k) = Nat.testBit s k := by
  cases h : Nat.testBit s k
  · have h2 : (2 : Nat) ^ k ≠ 0 := (Nat.two_pow_pos k).ne'
    simp [statusContains, Nat.and_two_pow, h, h2, Ne.symm h2]
  · simp [statusContains, Nat.and_two_pow, h]

theorem CARRY_eq_pow : CPUFlags.CARRY = 2 ^ 0 := by norm_num [CPUFlags.CARRY]

theorem ZERO_eq_pow : CPUFlags.ZERO = 2 ^ 1 := by norm_num [CPUFlags.ZERO]

theorem OVERFLOW_eq_pow : CPUFlags.OVERFLOW = 2 ^ 6 := by norm_num [CPUFlags.OVERFLOW]

theorem NEGATIV_eq_pow : CPUFlags.NEGATIV = 2 ^ 7 := by norm_num [CPUFlags.NEGATIV]

/-- Address resolution threads the CPU state through unchanged: every arm of
`get_operand_address` returns the input state. -/
theorem get_operand_address_thread (cpu : CPU) (mode : AddressingMode)
    (p : Nat × CPU) (h : cpu.get_operand_address mode = some p) : p.2 = cpu := by
  cases mode <;>
    simp only [CPU.get_operand_address, Option.map_eq_some', Option.bind_eq_some,
      Option.some.injEq, Option.pure_def, Option.bind_eq_bind] at h
  case Immediate => rw [← h]
  case ZeroPage => obtain ⟨a, -, h⟩ := h; rw [← h]
  case ZeroPage_X => obtain ⟨a, -, h⟩ := h; rw [← h]
  case ZeroPage_Y => obtain ⟨a, -, h⟩ := h; rw [← h]
  case Absolute => obtain ⟨a, -, h⟩ := h; rw [← h]
  case Absolute_X => obtain ⟨a, -, h⟩ := h; rw [← h]
  case Absolute_Y => obtain ⟨a, -, h⟩ := h; rw [← h]
  case Indirect_X => obtain ⟨a, -, b, -, c, -, h⟩ := h; rw [← h]
  case Indirect_Y => obtain ⟨a, -, b, -, c, -, h⟩ := h; rw [← h]
  case NoneAddressing => exact Option.noConfusion h

/-! ### Claim theorems: memory, reset, resolver frame -/

/-- C4: the claim fails on the code. The backing array is declared
`[u8; 0xFFFF]` (65535 cells), so `mem_read`/`mem_write` at address
0xFFFF index out of bounds (modelled `none`) instead of succeeding:
the full 65536-location space is not backed. -/
theorem mem_access_top_address_fails :
    cpuZero.mem_read 0xFFFF = none ∧ cpuZero.mem_write 0xFFFF 0 = none :=
  ⟨rfl, rfl⟩

/-- C9: for every addressing mode other than NoneAddressing, resolving the
operand address leaves the whole CPU state (registers, status byte,
program counter and every memory cell) unchanged: the state threaded out
of `get_operand_address` is the input state. -/
theorem get_operand_address_pure (cpu : CPU) (mode : AddressingMode)
    (_hmode : mode ≠ AddressingMode.NoneAddressing) (addr : Nat) (cpu' : CPU)
    (h : cpu.get_operand_address mode = some (addr, cpu')) : cpu' = cpu :=
  get_operand_address_thread cpu mode (addr, cpu') h

/-- C9 witness: Immediate mode on a concrete state resolves successfully
and the theorem applies there. -/
theorem get_operand_address_pure_witness :
    cpuD.get_operand_address AddressingMode.Immediate = some (5, cpuD) ∧ cpuD = cpuD :=
  ⟨rfl, get_operand_address_pure cpuD AddressingMode.Immediate (by decide) 5 cpuD rfl⟩

/-- C10: reset zeroes the accumulator, index X and the status byte, loads
the program counter from the little-endian vector at 0xFFFC, and leaves
register_y and every byte of memory unchanged. -/
theorem reset_spec (cpu : CPU) :
    cpu.reset =
      some { cpu with
             register_a := 0, register_x := 0, status := 0,
             program_counter := (cpu.memory 0xFFFD <<< 8) ||| cpu.memory 0xFFFC } :=
  rfl

/-! ### Claim theorems: little-endian round trip, load, run -/

/-- Recombining the two stored bytes of a 16-bit value yields the value
back. -/
theorem u16_bytes_recombine (value : Nat) (h : value < 0x10000) :
    (((value >>> 8) % 256) <<< 8) ||| (value &&& 255) = value := by
  have hdiv : value >>> 8 = value / 256 := by
    rw [Nat.shiftRight_eq_div_pow]
  have hmod : (value >>> 8) % 256 = value >>> 8 := by
    apply Nat.mod_eq_of_lt; rw [hdiv]; omega
  rw [hmod]
  refine Nat.eq_of_testBit_eq fun i => ?_
  rw [Nat.testBit_lor, Nat.testBit_shiftLeft, Nat.testBit_land, testBit_255]
  by_cases hi : i < 8
  · have h8 : ¬(i ≥ 8) := by omega
    simp [hi, h8]
  · push_neg at hi
    rw [Nat.testBit_shiftRight, show 8 + (i - 8) = i by omega]
    simp [hi, Nat.not_lt.mpr hi]

/-- C5 counterexample: at address 0xFFFE the high byte lands on index
0xFFFF of the 65535-cell array, so `mem_write_u16` panics (none) and the
round trip does not return the written value. -/
theorem write16_read16_roundtrip_fails_at_0xFFFE :
    (cpuZero.mem_write_u16 0xFFFE 0x1234).bind (fun c => c.mem_read_u16 0xFFFE)
      ≠ some 0x1234 := by
  have h : (cpuZero.mem_write_u16 0xFFFE 0x1234).bind (fun c => c.mem_read_u16 0xFFFE)
      = none := rfl
  rw [h]
  exact fun hc => Option.noConfusion hc

/-- C5 (amended): for every address such that both bytes stay inside the
65535-cell array (addr + 1 < 0xFFFF) and every 16-bit value,
`mem_write_u16` then `mem_read_u16` returns the value. -/
theorem write16_read16_roundtrip (cpu : CPU) (addr value : Nat)
    (haddr : addr + 1 < 0xFFFF) (hvalue : value < 0x10000) :
    (cpu.mem_write_u16 addr value).bind (fun c => c.mem_read_u16 addr)
      = some value := by
  have h1 : addr < MEMLEN := by simp only [MEMLEN]; omega
  have h2 : addr + 1 < MEMLEN := by simp only [MEMLEN]; omega
  have hne : ¬(addr = addr + 1) := by omega
  simp [CPU.mem_write_u16, CPU.mem_write, CPU.mem_read_u16, CPU.mem_read,
    h1, h2, hne]
  exact u16_bytes_recombine value hvalue

/-- C5 witness: the round trip on a concrete in-range address and value. -/
theorem write16_read16_roundtrip_witness :
    (cpuZero.mem_write_u16 0x1000 0xABCD).bind (fun c => c.mem_read_u16 0x1000)
      = some 0xABCD :=
  write16_read16_roundtrip cpuZero 0x1000 0xABCD (by norm_num) (by norm_num)

/-- C7: the claim fails on the code. A program of exactly 0x8000 bytes
fits the conceptual ROM region 0x8000..0xFFFF, but
`memory[0x8000..0x10000]` overruns the 65535-cell backing array, so
`load` panics (none) instead of succeeding. -/
theorem load_0x8000_bytes_fails :
    cpuZero.load (List.replicate 0x8000 0) = none := by
  unfold CPU.load MEMLEN
  rw [List.length_replicate]
  norm_num

/-- C8 (amended): fetching an opcode byte with no match arm makes the run
abort via the todo panic rather than continue past the byte; the abort
value carries no identification of the byte or its address. -/
theorem run_unknown_opcode_aborts (cpu : CPU) (fuel o : Nat)
    (hfetch : cpu.mem_read cpu.program_counter = some o)
    (h1 : o ≠ 0xA9) (h2 : o ≠ 0xAA) (h3 : o ≠ 0xE8) (h4 : o ≠ 0x00) :
    CPU.run (fuel + 1) cpu = RunResult.panicked RunError.notImplemented := by
  unfold CPU.run
  rw [hfetch]
  simp [beq_iff_eq, h1, h2, h3, h4]

/-- C8 witness: a concrete state whose next byte is 0x02 aborts. -/
theorem run_unknown_opcode_aborts_witness :
    CPU.run (0 + 1) cpuE = RunResult.panicked RunError.notImplemented :=
  run_unknown_opcode_aborts cpuE 0 0x02 rfl (by norm_num) (by norm_num)
    (by norm_num) (by norm_num)

set_option maxHeartbeats 2000000 in
/-- C8 counterexample: two loaded programs whose unrecognized opcode bytes
(0x02 at 0x8000, 0x12 at 0x8002) differ in both byte and address abort
with identical values, so the abort identifies neither the offending byte
nor its address. -/
theorem run_abort_identical_for_different_opcodes :
    CPU.load_and_run 3 cpuZero [0x02] = CPU.load_and_run 3 cpuZero [0xA9, 0x05, 0x12] ∧
    CPU.load_and_run 3 cpuZero [0x02] = RunResult.panicked RunError.notImplemented :=
  have h1 : CPU.load_and_run 3 cpuZero [0x02]
      = RunResult.panicked RunError.notImplemented := rfl
  have h2 : CPU.load_and_run 3 cpuZero [0xA9, 0x05, 0x12]
      = RunResult.panicked RunError.notImplemented := rfl
  ⟨h1.trans h2.symm, h1⟩

/-- C2: the claim fails on the code. For the memory byte 0xC0 (bits 6 and
7 both set) BIT leaves Overflow cleared even though bit 6 of the operand
is 1: the handler tests `value >> 6 == 1` and `0xC0 >> 6 = 3`. -/
theorem bit_overflow_bug :
    (cpuB.bit AddressingMode.Immediate).map
        (fun c => statusContains c.status CPUFlags.OVERFLOW) = some false ∧
    Nat.testBit 0xC0 6 = true :=
  ⟨rfl, by decide⟩

/-- C3: the claim fails on the code. With Carry set, pc = 0x8000 and
offset byte 0x80 (that is, -128), BCS sets the program counter to 0x8081:
the offset byte is zero-extended (`jmp as u16` on a `u8`) instead of
sign-extended, while the claim's target is 0x7F81. -/
theorem branch_zero_extends_offset :
    cpuC.bcs.map CPU.program_counter = some 0x8081 ∧
    branchTargetSpec 0x8000 0x80 = 0x7F81 ∧ (0x8081 : Nat) ≠ 0x7F81 :=
  ⟨rfl, by decide, by norm_num⟩

/-! ### Claim theorems: ADC -/

theorem statusRemove_testBit_frame_lt {s mask b : Nat} (hb8 : b < 8)
    (hb : Nat.testBit mask b = false) :
    Nat.testBit (statusRemove s mask) b = Nat.testBit s b := by
  rw [statusRemove, Nat.testBit_land, Nat.testBit_xor, hb, testBit_255]
  simp [hb8]

theorem statusSet_testBit_frame_lt {s mask b : Nat} (v : Bool) (hb8 : b < 8)
    (hb : Nat.testBit mask b = false) :
    Nat.testBit (statusSet s mask v) b = Nat.testBit s b := by
  cases v
  · exact statusRemove_testBit_frame_lt hb8 hb
  · exact statusInsert_testBit_frame hb

theorem statusContains_statusSet_self (s k : Nat) (hk : k < 8) (v : Bool) :
    statusContains (statusSet s (2 ^ k) v) (2 ^ k) = v := by
  rw [statusContains_two_pow]
  exact statusSet_testBit_self s k v hk

theorem statusContains_statusSet_other (s mask k : Nat) (hk : k < 8) (v : Bool)
    (hmask : Nat.testBit mask k = false) :
    statusContains (statusSet s mask v) (2 ^ k) = statusContains s (2 ^ k) := by
  rw [statusContains_two_pow, statusContains_two_pow]
  exact statusSet_testBit_frame_lt v hk hmask

set_option maxRecDepth 8192 in
/-- The ADC core helper `add_to_reg_a` satisfies the claim's
postcondition for every pre-state and operand byte. -/
theorem add_to_reg_a_post (cpu : CPU) (m : Nat) :
    ADCPost cpu m (cpu.add_to_reg_a m) := by
  have h7 : ∀ r : Nat, r < 256 → ((r >>> 7 == 1) = Nat.testBit r 7) := by decide
  simp only [ADCPost, CPU.add_to_reg_a, CPU.update_overflow_flag,
    CPU.update_zero_and_negative_flags, carryIn]
  refine ⟨?_, ?_, ?_, ?_, ?_⟩
  · omega
  · rw [CARRY_eq_pow]
    rw [statusContains_statusSet_other _ CPUFlags.NEGATIV 0 (by norm_num) _ (by decide),
      statusContains_statusSet_other _ CPUFlags.ZERO 0 (by norm_num) _ (by decide),
      statusContains_statusSet_other _ CPUFlags.OVERFLOW 0 (by norm_num) _ (by decide),
      statusContains_statusSet_self _ 0 (by norm_num)]
    simp only [decide_eq_true_eq]
    omega
  · rw [OVERFLOW_eq_pow]
    rw [statusContains_statusSet_other _ CPUFlags.NEGATIV 6 (by norm_num) _ (by decide),
      statusContains_statusSet_other _ CPUFlags.ZERO 6 (by norm_num) _ (by decide),
      statusContains_statusSet_self _ 6 (by norm_num)]
    simp [bne_iff_ne]
  · rw [ZERO_eq_pow]
    rw [statusContains_statusSet_other _ CPUFlags.NEGATIV 1 (by norm_num) _ (by decide),
      statusContains_statusSet_self _ 1 (by norm_num)]
    simp
  · rw [NEGATIV_eq_pow]
    rw [statusContains_statusSet_self _ 7 (by norm_num)]
    rw [h7 _ (Nat.mod_lt _ (by norm_num))]

/-- C1: for every pre-state and operand byte fetched through the resolved
address, ADC sets the accumulator to the low 8 bits of the widened sum
`a + m + carry`, Carry iff that sum exceeds 255, Overflow iff
`(a ^ r) & (m ^ r) & 0x80` is nonzero, and Zero/Negative from the result
byte. -/
theorem adc_correct (cpu c cpu' : CPU) (mode : AddressingMode) (addr m : Nat)
    (hresolve : cpu.get_operand_address mode = some (addr, c))
    (hfetch : c.mem_read addr = some m)
    (hrun : cpu.adc mode = some cpu') :
    ADCPost cpu m cpu' := by
  have hc : c = cpu := get_operand_address_thread cpu mode (addr, c) hresolve
  subst hc
  simp only [CPU.adc, hresolve, hfetch, Option.bind_eq_bind, Option.some_bind,
    Option.pure_def, Option.some.injEq] at hrun
  subst hrun
  exact add_to_reg_a_post _ m

/-- C1 witness: immediate-mode ADC of operand 0x40 with accumulator 0x40
and carry clear. -/
theorem adc_correct_witness : ADCPost cpuA 0x40 (cpuA.add_to_reg_a 0x40) :=
  adc_correct cpuA cpuA (cpuA.add_to_reg_a 0x40) AddressingMode.Immediate 0 0x40
    rfl rfl rfl

/-! ### Claim theorems: flag purity -/

theorem CARRY_lt : CPUFlags.CARRY < 256 := by norm_num [CPUFlags.CARRY]

theorem ZERO_lt : CPUFlags.ZERO < 256 := by norm_num [CPUFlags.ZERO]

theorem OVERFLOW_lt : CPUFlags.OVERFLOW < 256 := by norm_num [CPUFlags.OVERFLOW]

theorem NEGATIV_lt : CPUFlags.NEGATIV < 256 := by norm_num [CPUFlags.NEGATIV]

theorem testBit_statusSet2 {s : Nat} (hs : s < 256) {m1 m2 : Nat} (v1 v2 : Bool)
    {b : Nat} (hm1 : m1 < 256)
    (h1 : Nat.testBit m1 b = false) (h2 : Nat.testBit m2 b = false) :
    Nat.testBit (statusSet (statusSet s m1 v1) m2 v2) b = Nat.testBit s b := by
  rw [statusSet_testBit_frame v2 (statusSet_lt_256 v1 hs hm1) h2,
    statusSet_testBit_frame v1 hs h1]

theorem testBit_statusSet3 {s : Nat} (hs : s < 256) {m1 m2 m3 : Nat}
    (v1 v2 v3 : Bool) {b : Nat} (hm1 : m1 < 256) (hm2 : m2 < 256)
    (h1 : Nat.testBit m1 b = false) (h2 : Nat.testBit m2 b = false)
    (h3 : Nat.testBit m3 b = false) :
    Nat.testBit (statusSet (statusSet (statusSet s m1 v1) m2 v2) m3 v3) b
      = Nat.testBit s b := by
  rw [statusSet_testBit_frame v3
    (statusSet_lt_256 v2 (statusSet_lt_256 v1 hs hm1) hm2) h3]
  exact testBit_statusSet2 hs v1 v2 hm1 h1 h2

theorem testBit_statusSet4 {s : Nat} (hs : s < 256) {m1 m2 m3 m4 : Nat}
    (v1 v2 v3 v4 : Bool) {b : Nat} (hm1 : m1 < 256) (hm2 : m2 < 256)
    (hm3 : m3 < 256)
    (h1 : Nat.testBit m1 b = false) (h2 : Nat.testBit m2 b = false)
    (h3 : Nat.testBit m3 b = false) (h4 : Nat.testBit m4 b = false) :
    Nat.testBit (statusSet (statusSet (statusSet (statusSet s m1 v1) m2 v2) m3 v3) m4 v4) b
      = Nat.testBit s b := by
  rw [statusSet_testBit_frame v4
    (statusSet_lt_256 v3 (statusSet_lt_256 v2 (statusSet_lt_256 v1 hs hm1) hm2) hm3) h4]
  exact testBit_statusSet3 hs v1 v2 v3 hm1 hm2 h1 h2 h3

/-- The status byte produced by `update_zero_and_negative_flags` is the
input status with only the Zero and Negative bits rewritten. -/
theorem update_zn_status_shape (cpu : CPU) (r : Nat) :
    ∃ v1 v2 : Bool, (cpu.update_zero_and_negative_flags r).status
      = statusSet (statusSet cpu.status CPUFlags.ZERO v1) CPUFlags.NEGATIV v2 :=
  ⟨_, _, rfl⟩

/-- The status byte produced by `add_to_reg_a` rewrites only the Carry,
Overflow, Zero and Negative bits. -/
theorem add_to_reg_a_status_shape (cpu : CPU) (m : Nat) :
    ∃ v1 v2 v3 v4 : Bool, (cpu.add_to_reg_a m).status
      = statusSet (statusSet (statusSet (statusSet cpu.status CPUFlags.CARRY v1)
          CPUFlags.OVERFLOW v2) CPUFlags.ZERO v3) CPUFlags.NEGATIV v4 :=
  ⟨_, _, _, _, rfl⟩

/-- The status byte produced by `bit_shift_left_and_set_flags` rewrites
only the Carry, Zero and Negative bits. -/
theorem bsl_status_shape (cpu : CPU) (value : Nat) :
    ∃ v1 v2 v3 : Bool, (cpu.bit_shift_left_and_set_flags value).2.status
      = statusSet (statusSet (statusSet cpu.status CPUFlags.CARRY v1)
          CPUFlags.ZERO v2) CPUFlags.NEGATIV v3 :=
  ⟨_, _, _, rfl⟩

theorem update_zn_testBit (cpu : CPU) (r b : Nat) (hs : cpu.status < 256)
    (hbZ : Nat.testBit CPUFlags.ZERO b = false)
    (hbN : Nat.testBit CPUFlags.NEGATIV b = false) :
    Nat.testBit (cpu.update_zero_and_negative_flags r).status b
      = Nat.testBit cpu.status b := by
  obtain ⟨v1, v2, hshape⟩ := update_zn_status_shape cpu r
  rw [hshape]
  exact testBit_statusSet2 hs v1 v2 ZERO_lt hbZ hbN

theorem add_to_reg_a_testBit (cpu : CPU) (m b : Nat) (hs : cpu.status < 256)
    (hbC : Nat.testBit CPUFlags.CARRY b = false)
    (hbV : Nat.testBit CPUFlags.OVERFLOW b = false)
    (hbZ : Nat.testBit CPUFlags.ZERO b = false)
    (hbN : Nat.testBit CPUFlags.NEGATIV b = false) :
    Nat.testBit (cpu.add_to_reg_a m).status b = Nat.testBit cpu.status b := by
  obtain ⟨v1, v2, v3, v4, hshape⟩ := add_to_reg_a_status_shape cpu m
  rw [hshape]
  exact testBit_statusSet4 hs v1 v2 v3 v4 CARRY_lt OVERFLOW_lt ZERO_lt hbC hbV hbZ hbN

theorem bsl_testBit (cpu : CPU) (value b : Nat) (hs : cpu.status < 256)
    (hbC : Nat.testBit CPUFlags.CARRY b = false)
    (hbZ : Nat.testBit CPUFlags.ZERO b = false)
    (hbN : Nat.testBit CPUFlags.NEGATIV b = false) :
    Nat.testBit (cpu.bit_shift_left_and_set_flags value).2.status b
      = Nat.testBit cpu.status b := by
  obtain ⟨v1, v2, v3, hshape⟩ := bsl_status_shape cpu value
  rw [hshape]
  exact testBit_statusSet3 hs v1 v2 v3 CARRY_lt ZERO_lt hbC hbZ hbN

/-- The branch helper never changes the status byte. -/
theorem add_next_val_status (cpu : CPU) (p : Bool) (cpu' : CPU)
    (h : cpu.add_next_val_to_pc_if p = some cpu') : cpu'.status = cpu.status := by
  unfold CPU.add_next_val_to_pc_if at h
  split at h
  · rw [Option.bind_eq_bind, Option.bind_eq_some] at h
    obtain ⟨j, hj, h⟩ := h
    simp only [Option.pure_def, Option.some.injEq] at h
    subst h
    rfl
  · simp only [Option.some.injEq] at h
    subst h
    rfl

/-- C6: for every implemented instruction, every addressing mode and every
pre-state with an 8-bit status byte, executing the instruction leaves
every status bit outside the instruction's documented touched set
bit-for-bit equal to its pre-execution value. -/
theorem flag_purity (i : Instr) (mode : AddressingMode) (cpu cpu' : CPU)
    (hs : cpu.status < 256) (b : Nat)
    (hb : Nat.testBit (touchedMask i) b = false)
    (h : execInstr cpu i mode = some cpu') :
    Nat.testBit cpu'.status b = Nat.testBit cpu.status b := by
  cases i
  case lda =>
    simp only [touchedMask, Nat.testBit_lor, Bool.or_eq_false_iff] at hb
    obtain ⟨hbZ, hbN⟩ := hb
    simp only [execInstr, CPU.lda, Option.bind_eq_bind, Option.bind_eq_some] at h
    obtain ⟨⟨addr, c⟩, hg, h⟩ := h
    obtain rfl : c = cpu := get_operand_address_thread cpu mode (addr, c) hg
    obtain ⟨v, hv, h⟩ := h
    simp only [Option.pure_def, Option.some.injEq] at h
    subst h
    exact update_zn_testBit _ _ _ hs hbZ hbN
  case sta =>
    simp only [execInstr, CPU.sta, Option.bind_eq_bind, Option.bind_eq_some] at h
    obtain ⟨⟨addr, c⟩, hg, h⟩ := h
    obtain rfl : c = cpu := get_operand_address_thread cpu mode (addr, c) hg
    unfold CPU.mem_write at h
    split at h
    · simp only [Option.some.injEq] at h
      subst h
      rfl
    · exact Option.noConfusion h
  case tax =>
    simp only [touchedMask, Nat.testBit_lor, Bool.or_eq_false_iff] at hb
    obtain ⟨hbZ, hbN⟩ := hb
    simp only [execInstr, Option.some.injEq] at h
    subst h
    exact update_zn_testBit _ _ _ hs hbZ hbN
  case inx =>
    simp only [touchedMask, Nat.testBit_lor, Bool.or_eq_false_iff] at hb
    obtain ⟨hbZ, hbN⟩ := hb
    simp only [execInstr, Option.some.injEq] at h
    subst h
    exact update_zn_testBit _ _ _ hs hbZ hbN
  case adc =>
    simp only [touchedMask, Nat.testBit_lor, Bool.or_eq_false_iff] at hb
    obtain ⟨⟨⟨hbC, hbV⟩, hbZ⟩, hbN⟩ := hb
    simp only [execInstr, CPU.adc, Option.bind_eq_bind, Option.bind_eq_some] at h
    obtain ⟨⟨addr, c⟩, hg, h⟩ := h
    obtain rfl : c = cpu := get_operand_address_thread cpu mode (addr, c) hg
    obtain ⟨v, hv, h⟩ := h
    simp only [Option.pure_def, Option.some.injEq] at h
    subst h
    exact add_to_reg_a_testBit _ _ _ hs hbC hbV hbZ hbN
  case and =>
    simp only [touchedMask, Nat.testBit_lor, Bool.or_eq_false_iff] at hb
    obtain ⟨hbZ, hbN⟩ := hb
    simp only [execInstr, CPU.and, Option.bind_eq_bind, Option.bind_eq_some] at h
    obtain ⟨⟨addr, c⟩, hg, h⟩ := h
    obtain rfl : c = cpu := get_operand_address_thread cpu mode (addr, c) hg
    obtain ⟨v, hv, h⟩ := h
    simp only [Option.pure_def, Option.some.injEq] at h
    subst h
    exact update_zn_testBit _ _ _ hs hbZ hbN
  case asl =>
    simp only [touchedMask, Nat.testBit_lor, Bool.or_eq_false_iff] at hb
    obtain ⟨⟨hbC, hbZ⟩, hbN⟩ := hb
    simp only [execInstr, CPU.asl] at h
    split at h
    · simp only [Option.some.injEq] at h
      subst h
      exact bsl_testBit _ _ _ hs hbC hbZ hbN
    · rw [Option.bind_eq_bind, Option.bind_eq_some] at h
      obtain ⟨⟨addr, c⟩, hg, h⟩ := h
      obtain rfl : c = cpu := get_operand_address_thread cpu mode (addr, c) hg
      rw [Option.bind_eq_bind, Option.bind_eq_some] at h
      obtain ⟨v, hv, h⟩ := h
      unfold CPU.mem_write at h
      split at h
      · simp only [Option.some.injEq] at h
        subst h
        exact bsl_testBit _ _ _ hs hbC hbZ hbN
      · exact Option.noConfusion h
  case bit =>
    simp only [touchedMask, Nat.testBit_lor, Bool.or_eq_false_iff] at hb
    obtain ⟨⟨hbZ, hbV⟩, hbN⟩ := hb
    simp only [execInstr, CPU.bit, Option.bind_eq_bind, Option.bind_eq_some] at h
    obtain ⟨⟨addr, c⟩, hg, h⟩ := h
    obtain rfl : c = cpu := get_operand_address_thread cpu mode (addr, c) hg
    obtain ⟨v, hv, h⟩ := h
    simp only [Option.pure_def, Option.some.injEq] at h
    subst h
    cases hcond : (c.register_a &&& v == 0)
    · exact (testBit_statusSet2 (statusRemove_lt_256 CPUFlags.ZERO hs) _ _ OVERFLOW_lt hbV
        hbN).trans (statusRemove_testBit_frame hs hbZ)
    · exact (testBit_statusSet2 (statusInsert_lt_256 hs ZERO_lt) _ _ OVERFLOW_lt hbV
        hbN).trans (statusInsert_testBit_frame hbZ)
  case bcc =>
    simp only [execInstr, CPU.bcc] at h
    rw [add_next_val_status cpu _ cpu' h]
  case bcs =>
    simp only [execInstr, CPU.bcs] at h
    rw [add_next_val_status cpu _ cpu' h]
  case beq =>
    simp only [execInstr, CPU.beq] at h
    rw [add_next_val_status cpu _ cpu' h]
  case bmi =>
    simp only [execInstr, CPU.bmi] at h
    rw [add_next_val_status cpu _ cpu' h]
  case bne =>
    simp only [execInstr, CPU.bne] at h
    rw [add_next_val_status cpu _ cpu' h]
  case bpl =>
    simp only [execInstr, CPU.bpl] at h
    rw [add_next_val_status cpu _ cpu' h]
  case bvc =>
    simp only [execInstr, CPU.bvc] at h
    rw [add_next_val_status cpu _ cpu' h]
  case bvs =>
    simp only [execInstr, CPU.bvs] at h
    rw [add_next_val_status cpu _ cpu' h]

/-- C6 witness: INX on a concrete state leaves the untouched Carry bit of
the status byte unchanged. -/
theorem flag_purity_witness :
    Nat.testBit (CPU.inx cpuD).status 0 = Nat.testBit cpuD.status 0 :=
  flag_purity Instr.inx AddressingMode.NoneAddressing cpuD (CPU.inx cpuD)
    (by decide) 0 (by decide) rfl
